import Mathlib

/-!
Verification of `pysierraecg` (`src/pysierraecg/src/sierraecg/lib.py`).

The Python module is shallowly embedded below.  XML documents parsed by
`minidom` are modelled by the `Xml` tree; attribute values and element text
are plain strings.  NumPy `int16` sample buffers are modelled as `List Int`
whose arithmetic reduces every intermediate into the signed 16-bit range
(`wrap16`), matching NumPy scalar arithmetic on `int16` operands.  Fallible
Python code (exceptions) is modelled with `Except Err` / `Option`.

External collaborators that are not part of the module are passed in as
opaque function parameters: `b64` stands for `base64.b64decode` on the
inputs exercised, `codec` stands for `sierraecg.xli.xli_decode`
(modelled from the spec: the XLI codec source is not available here; the
spec describes it as an injected decode function receiving the raw byte
buffer and the label list and returning one sample sequence per label),
and `fsc` stands for the per-lead sample-count expression
`int(duration * (sampling_freq / 1000))`, which the source evaluates in
IEEE double arithmetic — floating point is outside this integer
embedding, so the value is injected and the theorems quantify over it.
-/

deriving instance DecidableEq for Except

/-- Error kinds raised by the Python module: `UnsupportedXmlFileError`,
`MissingXmlElementError`, `MissingXmlAttributeError`, plus the built-in
`ValueError` (failed `int`/`float`/`frombuffer` conversions) and
`IndexError` (out-of-range list indexing). -/
inductive Err where
  | unsupported (msg : String)
  | missingElement (tag : String)
  | missingAttribute (attr : String)
  | valueError (s : String)
  | indexError
deriving DecidableEq, Repr

/-- a `minidom` element: tag name, attribute map, concatenated text of the
direct `TEXT_NODE` children (what `get_text` returns), and child elements.
The parsed document itself is modelled as a node whose single child is the
root element. -/
inductive Xml where
  | node (tag : String) (attrs : List (String × String)) (text : String)
         (children : List Xml)

def Xml.tag : Xml → String
  | .node t _ _ _ => t

def Xml.attrs : Xml → List (String × String)
  | .node _ a _ _ => a

/-- embeds `get_text` on an element (concatenated direct text children). -/
def Xml.text : Xml → String
  | .node _ _ tx _ => tx

def Xml.children : Xml → List Xml
  | .node _ _ _ cs => cs

mutual

/-- all strict descendants of a node in document (preorder) order; this is
the search space of `minidom`'s `getElementsByTagName`. -/
def Xml.descendants : Xml → List Xml
  | .node _ _ _ cs => Xml.descList cs

def Xml.descList : List Xml → List Xml
  | [] => []
  | c :: cs => c :: (Xml.descendants c ++ Xml.descList cs)

end

/-- embeds `get_opt_node`: first descendant with the given tag, if any. -/
def get_opt_node (xdoc : Xml) (tag_name : String) : Option Xml :=
  (xdoc.descendants.filter (fun e => e.tag = tag_name)).head?

/-- embeds `get_node`: like `get_opt_node` but raising
`MissingXmlElementError` when the tag is absent. -/
def get_node (xdoc : Xml) (tag_name : String) : Except Err Xml :=
  match get_opt_node xdoc tag_name with
  | some xelt => .ok xelt
  | none => .error (.missingElement tag_name)

/-- embeds `get_nodes`: all descendants with the given tag. -/
def get_nodes (xdoc : Xml) (tag_name : String) : List Xml :=
  xdoc.descendants.filter (fun e => e.tag = tag_name)

/-- embeds `get_attr`: attribute lookup with an optional default, raising
`MissingXmlAttributeError` when the attribute is absent and no default was
supplied. -/
def get_attr (xdoc : Xml) (attr_name : String) (default : Option String) :
    Except Err String :=
  match xdoc.attrs.lookup attr_name with
  | some v => .ok v
  | none =>
    match default with
    | some d => .ok d
    | none => .error (.missingAttribute attr_name)

/-- digit-sequence value of a character list (`none` when empty or when a
non-digit occurs), accumulator style. -/
def parseDigitsAux : Nat → List Char → Option Nat
  | acc, [] => some acc
  | acc, c :: rest =>
    if c.isDigit then parseDigitsAux (acc * 10 + (c.toNat - '0'.toNat)) rest
    else none

/-- models Python `int(s)` on canonical integer literals (optional sign
followed by at least one digit); non-literals raise `ValueError`. -/
def py_int (s : String) : Except Err Int :=
  let core : List Char → Option Int := fun cs =>
    match cs with
    | [] => none
    | _ => (parseDigitsAux 0 cs).map (fun n => (n : Int))
  let parsed : Option Int :=
    match s.toList with
    | '-' :: t => (core t).map (fun n => -n)
    | '+' :: t => core t
    | t => core t
  match parsed with
  | some n => .ok n
  | none => .error (.valueError s)

/-- recogniser for the decimal literals accepted by the model of Python
`float(s)`: optional sign, digits, optional fractional part. -/
def floatLitCore : List Char → Bool
  | [] => false
  | cs =>
    let intPart := cs.takeWhile (fun c => c.isDigit)
    let rest := cs.dropWhile (fun c => c.isDigit)
    match rest with
    | [] => !intPart.isEmpty
    | '.' :: frac => (!intPart.isEmpty || !frac.isEmpty) && frac.all (fun c => c.isDigit)
    | _ => false

/-- models Python `float(s)`: the module stores the parsed resolution but
never computes with it, so the model keeps the accepted literal itself and
raises `ValueError` on anything else. -/
def py_float (s : String) : Except Err String :=
  let cs :=
    match s.toList with
    | '-' :: t => t
    | '+' :: t => t
    | t => t
  if floatLitCore cs then .ok s else .error (.valueError s)

/-- character-level splitter behind `py_split_sp`: cut a character list at
every space, keeping empty groups (`str.split` with an explicit separator
does not collapse runs). -/
def splitChars : List Char → List (List Char)
  | [] => [[]]
  | c :: rest =>
    if c = ' ' then [] :: splitChars rest
    else
      match splitChars rest with
      | g :: gs => (c :: g) :: gs
      | [] => [[c]]

/-- models Python `s.split(" ")`: split on every single space, keeping
empty pieces. -/
def py_split_sp (s : String) : List String :=
  (splitChars s.toList).map (fun g => String.mk g)

/-- models the Python slice `l[:n]` (a negative `n` counts from the end,
clamped at zero). -/
def pyTake {α : Type} (l : List α) (n : Int) : List α :=
  if 0 ≤ n then l.take n.toNat else l.take ((l.length : Int) + n).toNat

/-- models the Python slice `l[start:stop]` for the non-negative indices
that arise in `split_leads` (out-of-range bounds clamp). -/
def pySlice (l : List Int) (start stop : Int) : List Int :=
  (l.take stop.toNat).drop start.toNat

/-- models `range(n)` for an `int` bound (empty when `n ≤ 0`). -/
def pyRange (n : Int) : List Int :=
  (List.range n.toNat).map (fun k => (k : Int))

/-- reduction of an integer into the signed 16-bit range: the effect of
every NumPy scalar operation whose operands are `int16` (or an `int16` and
a small Python `int`), which wraps on overflow. -/
def wrap16 (z : Int) : Int :=
  (z + 32768) % 65536 - 32768

/-- little-endian signed 16-bit decoding of a byte list (pairs of bytes,
low byte first), as `np.frombuffer(-, dtype=np.int16)` interprets it. -/
def toInt16LE : List Nat → List Int
  | lo :: hi :: rest =>
    (let u := lo + 256 * hi
     if u < 32768 then (u : Int) else (u : Int) - 65536) :: toInt16LE rest
  | _ => []

/-- embeds `np.frombuffer(buf, dtype=np.int16)`: the buffer length must be
a multiple of the two-byte item size, otherwise `ValueError`. -/
def np_frombuffer_int16 (buf : List Nat) : Except Err (List Int) :=
  if buf.length % 2 = 0 then .ok (toInt16LE buf)
  else .error (.valueError "buffer size must be a multiple of element size")

/-- models Python `dict` assignment `m[k] = v` on an insertion-ordered
association list: an existing key is overwritten in place, a new key is
appended. -/
def dictInsert {α : Type} (m : List (String × α)) (k : String) (v : α) :
    List (String × α) :=
  if m.any (fun p => p.1 = k) then
    m.map (fun p => if p.1 = k then (k, v) else p)
  else m ++ [(k, v)]

/-- embeds the `EcgLead` entity (fields as assigned by `assert_leads`). -/
structure EcgLead where
  label : String
  sampling_freq : Int
  duration : Int
  samples : List Int
deriving DecidableEq, Repr

/-- embeds the `EcgRepbeat` entity.  `resolution` keeps the accepted
`float` literal itself (see `py_float`). -/
structure EcgRepbeat where
  label : String
  sampling_freq : Int
  duration : Int
  resolution : String
  method : String
  samples : List Int
deriving DecidableEq, Repr

/-- embeds the `SierraEcgFile` entity returned by `read_file`; `repbeats`
is an insertion-ordered association list with unique keys. -/
structure SierraEcgFile where
  doc_type : String
  doc_ver : String
  leads : List EcgLead
  repbeats : List (String × EcgRepbeat)
deriving DecidableEq, Repr

/-- embeds `assert_version`: reads `documenttype` and `documentversion`
under `documentinfo` and checks them against the two allow-lists. -/
def assert_version (elt : Xml) : Except Err (String × String) := do
  let doc_info ← get_node elt "documentinfo"
  let doc_type := (← get_node doc_info "documenttype").text
  let doc_ver := (← get_node doc_info "documentversion").text
  if doc_type ∉ ["SierraECG", "PhilipsECG"] ∨
      doc_ver ∉ ["1.03", "1.04", "1.04.01", "1.04.02"] then
    .error (.unsupported
      ("Files of type " ++ doc_type ++ " " ++ doc_ver ++ " are unsupported"))
  else
    .ok (doc_type, doc_ver)

/-- embeds `get_lead_name`: fixed label lookup for a 1-based channel
index, falling through to a generic channel label. -/
def get_lead_name (leads_used : String) (index : Int) : String :=
  if leads_used ∈ ["STD-12", "10-WIRE"] then
    if index = 1 then "I"
    else if index = 2 then "II"
    else if index = 3 then "III"
    else if index = 4 then "aVR"
    else if index = 5 then "aVL"
    else if index = 6 then "aVF"
    else if 6 < index ∧ index ≤ 12 then "V" ++ toString (index - 6)
    else "Channel " ++ toString index
  else "Channel " ++ toString index

/-- embeds `get_or_create_labels`: either split the explicit `leadlabels`
attribute and truncate it to `numberofleads`, or synthesise labels from
the allocated channel count and the acquisition type. -/
def get_or_create_labels (signal_details parsed_waveforms : Xml) :
    Except Err (List String) := do
  let lead_labels ← get_attr parsed_waveforms "leadlabels" (some "")
  if lead_labels ≠ "" then
    let lead_count ← py_int (← get_attr parsed_waveforms "numberofleads" none)
    .ok (pyTake (py_split_sp lead_labels) lead_count)
  else
    let good_channels ← py_int (← get_node signal_details "numberchannelsallocated").text
    let leads_used := (← get_node signal_details "acquisitiontype").text
    .ok ((pyRange good_channels).map (fun x => get_lead_name leads_used (x + 1)))

/-- embeds `infer_compression`: `compressmethod` if present, else
`compression`, else `"Uncompressed"` (the inner `get_attr` is evaluated
first, as Python evaluates the default argument eagerly). -/
def infer_compression (parsed_waveforms : Xml) : Except Err String := do
  let d ← get_attr parsed_waveforms "compression" (some "Uncompressed")
  get_attr parsed_waveforms "compressmethod" (some d)

/-- the instantiation of the sample-count collaborator `fsc` used by the
concrete witnesses and counterexamples below: the exact quotient truncated
toward zero.  The source computes `int(duration * (sampling_freq / 1000))`
in IEEE doubles; at every input a theorem below feeds to `fscStd` the
double computation is exact and CPython returns the same value
(`int(1 * (1000 / 1000)) = 1`, `int(2 * (1000 / 1000)) = 2`).  The two do
differ elsewhere — CPython gives `int(10000 * (43 / 1000)) = 429` where
the exact quotient is 430 — which is why the pipeline takes `fsc` as an
opaque parameter instead of fixing either function. -/
def fscStd (duration sampling_freq : Int) : Int :=
  Int.tdiv (duration * sampling_freq) 1000

/-- embeds the `while offset < lead_count * samples` loop of
`split_leads`.  The `fuel` argument bounds the number of iterations; the
source loop runs at most `lead_count` times (offsets `0, s, 2*s, …` with
`s > 0` whenever the guard can hold), so `split_leads` passes
`lead_count` as fuel and the two agree on every input. -/
def splitGo (vals : List Int) (limit samples offset : Int) :
    Nat → List (List Int)
  | 0 => []
  | fuel + 1 =>
    if offset < limit then
      pySlice vals offset (offset + samples) ::
        splitGo vals limit samples (offset + samples) fuel
    else []

/-- embeds `split_leads`: decode the byte buffer as little-endian `int16`
and cut it into `lead_count` contiguous blocks of `samples` values. -/
def split_leads (waveform_data : List Nat) (lead_count : Nat) (samples : Int) :
    Except Err (List (List Int)) := do
  let all_samples ← np_frombuffer_int16 waveform_data
  .ok (splitGo all_samples ((lead_count : Int) * samples) samples 0 lead_count)

/-- embeds `get_waveform_data`: check the payload encoding, decode the
payload, then split it directly or hand it to the XLI codec.  `fsc` is the
injected IEEE-double sample-count expression (see `fscStd`). -/
def get_waveform_data (b64 : String → List Nat)
    (codec : List Nat → List String → List (List Int))
    (fsc : Int → Int → Int)
    (signal_details parsed_waveforms : Xml) (labels : List String) :
    Except Err (List (List Int)) := do
  let sampling_freq ← py_int (← get_node signal_details "samplingrate").text
  let duration ← py_int (← get_attr parsed_waveforms "durationperchannel" none)
  let sample_count := fsc duration sampling_freq
  let encoding ← get_attr parsed_waveforms "dataencoding" none
  let waveform_data ←
    if encoding = "Base64" then pure (b64 parsed_waveforms.text)
    else .error (.unsupported ("Waveform data encoding unsupported: " ++ encoding))
  let compression_method ← infer_compression parsed_waveforms
  if compression_method ≠ "Uncompressed" then
    if compression_method = "XLI" then
      .ok (codec waveform_data labels)
    else
      .error (.unsupported
        ("Waveform data compression algorithm unsupported: " ++ compression_method))
  else
    split_leads waveform_data labels.length sample_count

/-- embeds the lead-building loop of `assert_leads`
(`lead.samples = waveform_data[index]` raises `IndexError` when the
decoder returned fewer sequences than there are labels). -/
def buildLeads (sampling_freq duration : Int)
    (waveform_data : List (List Int)) :
    Nat → List String → Except Err (List EcgLead)
  | _, [] => .ok []
  | index, label :: rest =>
    match waveform_data.get? index with
    | none => .error .indexError
    | some s => do
      let tail ← buildLeads sampling_freq duration waveform_data (index + 1) rest
      .ok ({ label := label, sampling_freq := sampling_freq,
             duration := duration, samples := s } :: tail)

/-- embeds `assert_leads`: resolve geometry and labels, decode the
waveform payload and assemble one `EcgLead` per label. -/
def assert_leads (b64 : String → List Nat)
    (codec : List Nat → List String → List (List Int))
    (fsc : Int → Int → Int) (elt : Xml) :
    Except Err (List EcgLead × List String) := do
  let dataacq ← get_node elt "dataacquisition"
  let signal_details ← get_node dataacq "signalcharacteristics"
  let parsed_waveforms ← get_node elt "parsedwaveforms"
  let sampling_freq ← py_int (← get_node signal_details "samplingrate").text
  let duration ← py_int (← get_attr parsed_waveforms "durationperchannel" none)
  let labels ← get_or_create_labels signal_details parsed_waveforms
  let waveform_data ← get_waveform_data b64 codec fsc signal_details parsed_waveforms labels
  let leads ← buildLeads sampling_freq duration waveform_data 0 labels
  .ok (leads, labels)

/-- embeds the first correction loop of `read_file`:
`lead_iii[i] = lead_ii[i] - lead_i[i] - lead_iii[i]` on `int16` arrays
(every NumPy intermediate wraps into the `int16` range, and wrapping
commutes with the subtraction chain).  Indexing `lead_ii`/`lead_i` out of
range raises `IndexError`, modelled by `none`. -/
def corrIII (lI lII : List Int) : Nat → List Int → Option (List Int)
  | _, [] => some []
  | i, x :: xs => do
    let b ← lII.get? i
    let a ← lI.get? i
    let rest ← corrIII lI lII (i + 1) xs
    some (wrap16 (b - a - x) :: rest)

/-- embeds the second correction loop of `read_file`:
`lead_avr[i] = -lead_avr[i] - floor((lead_i[i] + lead_ii[i]) / 2)`.
The negation and the sum are `int16` operations (wrapped); the true
division by 2 and `math.floor` are exact on this range and amount to
flooring division; the final subtraction is again an `int16` operation. -/
def corrAVR (lI lII : List Int) : Nat → List Int → Option (List Int)
  | _, [] => some []
  | i, x :: xs => do
    let a ← lI.get? i
    let b ← lII.get? i
    let rest ← corrAVR lI lII (i + 1) xs
    some (wrap16 (wrap16 (-x) - Int.fdiv (wrap16 (a + b)) 2) :: rest)

/-- embeds the third correction loop of `read_file`:
`lead_avl[i] = floor((lead_i[i] - lead_iii[i]) / 2) - lead_avl[i]`,
reading the already corrected lead III. -/
def corrAVL (lI lIII : List Int) : Nat → List Int → Option (List Int)
  | _, [] => some []
  | i, x :: xs => do
    let a ← lI.get? i
    let c ← lIII.get? i
    let rest ← corrAVL lI lIII (i + 1) xs
    some (wrap16 (Int.fdiv (wrap16 (a - c)) 2 - x) :: rest)

/-- embeds the fourth correction loop of `read_file`:
`lead_avf[i] = floor((lead_ii[i] + lead_iii[i]) / 2) - lead_avf[i]`,
reading the already corrected lead III. -/
def corrAVF (lII lIII : List Int) : Nat → List Int → Option (List Int)
  | _, [] => some []
  | i, x :: xs => do
    let b ← lII.get? i
    let c ← lIII.get? i
    let rest ← corrAVF lII lIII (i + 1) xs
    some (wrap16 (Int.fdiv (wrap16 (b + c)) 2 - x) :: rest)

/-- embeds the augmented-lead stage of `read_file` (lines 78-95) on the
per-lead sample lists: read the six fixed positions (raising `IndexError`,
i.e. `none`, when fewer than six leads were decoded), then run the four
correction loops in source order; leads beyond position 5 are untouched. -/
def deriveStage (ls : List (List Int)) : Option (List (List Int)) := do
  let lI ← ls.get? 0
  let lII ← ls.get? 1
  let lIII ← ls.get? 2
  let lavr ← ls.get? 3
  let lavl ← ls.get? 4
  let lavf ← ls.get? 5
  let lIII2 ← corrIII lI lII 0 lIII
  let lavr2 ← corrAVR lI lII 0 lavr
  let lavl2 ← corrAVL lI lIII2 0 lavl
  let lavf2 ← corrAVF lII lIII2 0 lavf
  some (lI :: lII :: lIII2 :: lavr2 :: lavl2 :: lavf2 :: ls.drop 6)

/-- claim-side counterpart of `corrIII`, following the claim's words:
`III[i] = II[i] - I[i] - III[i]` in exact integer arithmetic. -/
def corrIII_spec (lI lII : List Int) : Nat → List Int → Option (List Int)
  | _, [] => some []
  | i, x :: xs => do
    let b ← lII.get? i
    let a ← lI.get? i
    let rest ← corrIII_spec lI lII (i + 1) xs
    some ((b - a - x) :: rest)

/-- claim-side counterpart of `corrAVR`:
`aVR[i] = -aVR[i] - floor((I[i] + II[i]) / 2)` in exact integer
arithmetic with flooring division. -/
def corrAVR_spec (lI lII : List Int) : Nat → List Int → Option (List Int)
  | _, [] => some []
  | i, x :: xs => do
    let a ← lI.get? i
    let b ← lII.get? i
    let rest ← corrAVR_spec lI lII (i + 1) xs
    some ((-x - Int.fdiv (a + b) 2) :: rest)

/-- claim-side counterpart of `corrAVL`:
`aVL[i] = floor((I[i] - III[i]) / 2) - aVL[i]` with the corrected III. -/
def corrAVL_spec (lI lIII : List Int) : Nat → List Int → Option (List Int)
  | _, [] => some []
  | i, x :: xs => do
    let a ← lI.get? i
    let c ← lIII.get? i
    let rest ← corrAVL_spec lI lIII (i + 1) xs
    some ((Int.fdiv (a - c) 2 - x) :: rest)

/-- claim-side counterpart of `corrAVF`:
`aVF[i] = floor((II[i] + III[i]) / 2) - aVF[i]` with the corrected III. -/
def corrAVF_spec (lII lIII : List Int) : Nat → List Int → Option (List Int)
  | _, [] => some []
  | i, x :: xs => do
    let b ← lII.get? i
    let c ← lIII.get? i
    let rest ← corrAVF_spec lII lIII (i + 1) xs
    some ((Int.fdiv (b + c) 2 - x) :: rest)

/-- claim-side counterpart of `deriveStage`, following the claim's words:
the same four corrections in the same order but in exact (unbounded)
integer arithmetic. -/
def deriveStage_spec (ls : List (List Int)) : Option (List (List Int)) := do
  let lI ← ls.get? 0
  let lII ← ls.get? 1
  let lIII ← ls.get? 2
  let lavr ← ls.get? 3
  let lavl ← ls.get? 4
  let lavf ← ls.get? 5
  let lIII2 ← corrIII_spec lI lII 0 lIII
  let lavr2 ← corrAVR_spec lI lII 0 lavr
  let lavl2 ← corrAVL_spec lI lIII2 0 lavl
  let lavf2 ← corrAVF_spec lII lIII2 0 lavf
  some (lI :: lII :: lIII2 :: lavr2 :: lavl2 :: lavf2 :: ls.drop 6)

/-- embeds the body of the `for item in get_nodes(elt_repbeats, "repbeat")`
loop of `assert_reps` for one `repbeat` element. -/
def processRep (b64 : String → List Nat) (encoding : String)
    (samplingrate : Int) (resolution : String) (method : String)
    (item : Xml) : Except Err EcgRepbeat := do
  let label ← get_attr item "leadname" none
  match get_opt_node item "waveform" with
  | some waveform => do
    let duration ← py_int (← get_attr waveform "duration" none)
    if encoding = "Base64" then
      let samples ← np_frombuffer_int16 (b64 waveform.text)
      .ok { label := label, sampling_freq := samplingrate, duration := duration,
            resolution := resolution, method := method, samples := samples }
    else
      .error (.unsupported
        ("Representative beat waveform data encoding unsupported: " ++ encoding))
  | none => do
    let duration ← py_int (← get_attr item "duration" none)
    if encoding = "Base64" then
      let samples ← np_frombuffer_int16 (b64 item.text)
      .ok { label := label, sampling_freq := samplingrate, duration := duration,
            resolution := resolution, method := method, samples := samples }
    else
      .error (.unsupported
        ("Representative beat waveform data encoding unsupported: " ++ encoding))

/-- embeds the accumulation of `repbeats[repbeat.label] = repbeat` over the
`repbeat` elements (Python `dict` assignment: last write wins). -/
def processReps (b64 : String → List Nat) (encoding : String)
    (samplingrate : Int) (resolution : String) (method : String) :
    List Xml → List (String × EcgRepbeat) → Except Err (List (String × EcgRepbeat))
  | [], acc => .ok acc
  | item :: rest, acc => do
    let repbeat ← processRep b64 encoding samplingrate resolution method item
    processReps b64 encoding samplingrate resolution method rest
      (dictInsert acc repbeat.label repbeat)

/-- embeds `assert_reps`: an absent `repbeats` container yields the empty
mapping; otherwise the container attributes are read (sampling rate,
resolution and method are optional with defaults) and every `repbeat`
element is decoded and stored under its `leadname`. -/
def assert_reps (b64 : String → List Nat) (elt : Xml) :
    Except Err (List (String × EcgRepbeat)) := do
  match get_opt_node elt "repbeats" with
  | none => .ok []
  | some elt_repbeats => do
    let encoding ← get_attr elt_repbeats "dataencoding" none
    let samplingrate ← py_int (← get_attr elt_repbeats "samplespersec" (some "0"))
    let resolution ← py_float (← get_attr elt_repbeats "resolution" (some "0"))
    let method ← get_attr elt_repbeats "repbeatmethod" (some "")
    processReps b64 encoding samplingrate resolution method
      (get_nodes elt_repbeats "repbeat") []

/-- embeds `read_file`: locate the root element, validate the version,
decode the leads, run the augmented-lead corrections in place, and
assemble the `SierraEcgFile` (attaching representative beats only when
requested).  One value-level simplification: on the uncompressed route the
source's sample arrays are read-only `np.frombuffer` views, so a
correction loop that runs at least one iteration raises `ValueError`
there, while this model returns the corrected values; every theorem below
that touches `read_file` either follows an error path, runs zero loop
iterations (empty leads 2..5), or is stated at the derivation-stage
level, so none relies on the collapsed error path. -/
def read_file (b64 : String → List Nat)
    (codec : List Nat → List String → List (List Int))
    (fsc : Int → Int → Int)
    (xdom : Xml) (include_repbeats : Bool) : Except Err SierraEcgFile := do
  let root ← get_node xdom "restingecgdata"
  let tv ← assert_version root
  let ll ← assert_leads b64 codec fsc root
  let derived ←
    match deriveStage (ll.1.map (fun l => l.samples)) with
    | some d => pure d
    | none => .error .indexError
  let leads := (ll.1.zip derived).map (fun p => { p.1 with samples := p.2 })
  let repbeats ← if include_repbeats then assert_reps b64 root else pure []
  .ok { doc_type := tv.1, doc_ver := tv.2, leads := leads, repbeats := repbeats }

theorem wrap16_eq_self {z : Int} (h1 : -32768 ≤ z) (h2 : z < 32768) : wrap16 z = z := by
  simp only [wrap16]
  omega

theorem fdiv_two_eq_ediv (s : Int) : Int.fdiv s 2 = s / 2 :=
  Int.fdiv_eq_ediv s (by omega)

theorem corrIII_small (lI lII : List Int)
    (hI : ∀ x ∈ lI, -8191 ≤ x ∧ x ≤ 8191)
    (hII : ∀ x ∈ lII, -8191 ≤ x ∧ x ≤ 8191) :
    ∀ (l : List Int), (∀ x ∈ l, -8191 ≤ x ∧ x ≤ 8191) → ∀ (i : Nat),
      corrIII lI lII i l = corrIII_spec lI lII i l ∧
      (∀ r, corrIII lI lII i l = some r → ∀ y ∈ r, -24573 ≤ y ∧ y ≤ 24573) := by
  intro l
  induction l with
  | nil =>
    intro _ i
    refine ⟨rfl, ?_⟩
    intro r hr y hy
    simp only [corrIII, Option.some.injEq] at hr
    subst hr
    simp at hy
  | cons x xs ih =>
    intro hl i
    have hx := hl x (by simp)
    have hxs : ∀ y ∈ xs, -8191 ≤ y ∧ y ≤ 8191 := fun y hy => hl y (by simp [hy])
    obtain ⟨iheq, ihbnd⟩ := ih hxs (i + 1)
    cases hb : lII[i]? with
    | none => simp [corrIII, corrIII_spec, hb]
    | some b =>
      cases ha : lI[i]? with
      | none => simp [corrIII, corrIII_spec, hb, ha]
      | some a =>
        have hav := hI a (List.getElem?_mem ha)
        have hbv := hII b (List.getElem?_mem hb)
        have hw : wrap16 (b - a - x) = b - a - x :=
          wrap16_eq_self (by omega) (by omega)
        cases hrest : corrIII lI lII (i + 1) xs with
        | none =>
          have hrest2 : corrIII_spec lI lII (i + 1) xs = none := by
            rw [← iheq]; exact hrest
          constructor
          · simp [corrIII, corrIII_spec, hb, ha, hrest, hrest2]
          · intro r hr
            simp [corrIII, hb, ha, hrest] at hr
        | some r =>
          have hrest2 : corrIII_spec lI lII (i + 1) xs = some r := by
            rw [← iheq]; exact hrest
          have hrbnd := ihbnd r hrest
          constructor
          · simp [corrIII, corrIII_spec, hb, ha, hrest, hrest2, hw]
          · intro r2 hr2 y hy
            simp [corrIII, hb, ha, hrest, hw] at hr2
            subst hr2
            rcases List.mem_cons.mp hy with h | h
            · subst h; omega
            · exact hrbnd y h

theorem corrAVR_small (lI lII : List Int)
    (hI : ∀ x ∈ lI, -8191 ≤ x ∧ x ≤ 8191)
    (hII : ∀ x ∈ lII, -8191 ≤ x ∧ x ≤ 8191) :
    ∀ (l : List Int), (∀ x ∈ l, -8191 ≤ x ∧ x ≤ 8191) → ∀ (i : Nat),
      corrAVR lI lII i l = corrAVR_spec lI lII i l := by
  intro l
  induction l with
  | nil => intro _ i; rfl
  | cons x xs ih =>
    intro hl i
    have hx := hl x (by simp)
    have hxs : ∀ y ∈ xs, -8191 ≤ y ∧ y ≤ 8191 := fun y hy => hl y (by simp [hy])
    have iheq := ih hxs (i + 1)
    cases ha : lI[i]? with
    | none => simp [corrAVR, corrAVR_spec, ha]
    | some a =>
      cases hb : lII[i]? with
      | none => simp [corrAVR, corrAVR_spec, ha, hb]
      | some b =>
        have hav := hI a (List.getElem?_mem ha)
        have hbv := hII b (List.getElem?_mem hb)
        have h1 : wrap16 (a + b) = a + b := wrap16_eq_self (by omega) (by omega)
        have h2 : wrap16 (-x) = -x := wrap16_eq_self (by omega) (by omega)
        have h3 : wrap16 (-x - Int.fdiv (a + b) 2) = -x - Int.fdiv (a + b) 2 := by
          rw [fdiv_two_eq_ediv]
          exact wrap16_eq_self (by omega) (by omega)
        simp [corrAVR, corrAVR_spec, ha, hb, iheq, h1, h2, h3]

theorem corrAVL_small (lI lIII : List Int)
    (hI : ∀ x ∈ lI, -8191 ≤ x ∧ x ≤ 8191)
    (hIII : ∀ x ∈ lIII, -24573 ≤ x ∧ x ≤ 24573) :
    ∀ (l : List Int), (∀ x ∈ l, -8191 ≤ x ∧ x ≤ 8191) → ∀ (i : Nat),
      corrAVL lI lIII i l = corrAVL_spec lI lIII i l := by
  intro l
  induction l with
  | nil => intro _ i; rfl
  | cons x xs ih =>
    intro hl i
    have hx := hl x (by simp)
    have hxs : ∀ y ∈ xs, -8191 ≤ y ∧ y ≤ 8191 := fun y hy => hl y (by simp [hy])
    have iheq := ih hxs (i + 1)
    cases ha : lI[i]? with
    | none => simp [corrAVL, corrAVL_spec, ha]
    | some a =>
      cases hc : lIII[i]? with
      | none => simp [corrAVL, corrAVL_spec, ha, hc]
      | some c =>
        have hav := hI a (List.getElem?_mem ha)
        have hcv := hIII c (List.getElem?_mem hc)
        have h1 : wrap16 (a - c) = a - c := wrap16_eq_self (by omega) (by omega)
        have h2 : wrap16 (Int.fdiv (a - c) 2 - x) = Int.fdiv (a - c) 2 - x := by
          rw [fdiv_two_eq_ediv]
          exact wrap16_eq_self (by omega) (by omega)
        simp [corrAVL, corrAVL_spec, ha, hc, iheq, h1, h2]

theorem corrAVF_small (lII lIII : List Int)
    (hII : ∀ x ∈ lII, -8191 ≤ x ∧ x ≤ 8191)
    (hIII : ∀ x ∈ lIII, -24573 ≤ x ∧ x ≤ 24573) :
    ∀ (l : List Int), (∀ x ∈ l, -8191 ≤ x ∧ x ≤ 8191) → ∀ (i : Nat),
      corrAVF lII lIII i l = corrAVF_spec lII lIII i l := by
  intro l
  induction l with
  | nil => intro _ i; rfl
  | cons x xs ih =>
    intro hl i
    have hx := hl x (by simp)
    have hxs : ∀ y ∈ xs, -8191 ≤ y ∧ y ≤ 8191 := fun y hy => hl y (by simp [hy])
    have iheq := ih hxs (i + 1)
    cases hb : lII[i]? with
    | none => simp [corrAVF, corrAVF_spec, hb]
    | some b =>
      cases hc : lIII[i]? with
      | none => simp [corrAVF, corrAVF_spec, hb, hc]
      | some c =>
        have hbv := hII b (List.getElem?_mem hb)
        have hcv := hIII c (List.getElem?_mem hc)
        have h1 : wrap16 (b + c) = b + c := wrap16_eq_self (by omega) (by omega)
        have h2 : wrap16 (Int.fdiv (b + c) 2 - x) = Int.fdiv (b + c) 2 - x := by
          rw [fdiv_two_eq_ediv]
          exact wrap16_eq_self (by omega) (by omega)
        simp [corrAVF, corrAVF_spec, hb, hc, iheq, h1, h2]

theorem deriveStage_eq_none_of_lt_six (ls : List (List Int)) (h : ls.length < 6) :
    deriveStage ls = none := by
  rcases ls with _ | ⟨a, _ | ⟨b, _ | ⟨c, _ | ⟨d0, _ | ⟨e0, _ | ⟨f0, rest⟩⟩⟩⟩⟩⟩
  · rfl
  · rfl
  · rfl
  · simp [deriveStage, bind, Option.bind]
  · simp [deriveStage, bind, Option.bind]
  · simp [deriveStage, bind, Option.bind]
  · simp at h
    omega

theorem deriveStage_some_structure (ls : List (List Int)) (d : List (List Int))
    (h : deriveStage ls = some d) :
    6 ≤ ls.length ∧ d.length = ls.length ∧
    d.get? 0 = ls.get? 0 ∧ d.get? 1 = ls.get? 1 ∧ d.drop 6 = ls.drop 6 := by
  rcases ls with _ | ⟨a, _ | ⟨b, _ | ⟨c, _ | ⟨d0, _ | ⟨e0, _ | ⟨f0, rest⟩⟩⟩⟩⟩⟩
  · simp [deriveStage, bind, Option.bind] at h
  · simp [deriveStage, bind, Option.bind] at h
  · simp [deriveStage, bind, Option.bind] at h
  · simp [deriveStage, bind, Option.bind] at h
  · simp [deriveStage, bind, Option.bind] at h
  · simp [deriveStage, bind, Option.bind] at h
  · simp only [deriveStage, List.get?_cons_zero, List.get?_cons_succ,
      Option.bind_eq_bind', Option.some_bind'] at h
    rw [Option.bind_eq_some'] at h
    obtain ⟨l3, h3, h⟩ := h
    rw [Option.bind_eq_some'] at h
    obtain ⟨l4, h4, h⟩ := h
    rw [Option.bind_eq_some'] at h
    obtain ⟨l5, h5, h⟩ := h
    rw [Option.bind_eq_some'] at h
    obtain ⟨l6, h6, h⟩ := h
    simp only [Option.some.injEq] at h
    subst h
    simp

theorem read_file_indexError_of_short (b64 : String → List Nat)
    (codec : List Nat → List String → List (List Int))
    (fsc : Int → Int → Int) (xdom root : Xml)
    (irb : Bool) (tv : String × String) (ll : List EcgLead × List String)
    (h1 : get_node xdom "restingecgdata" = .ok root)
    (h2 : assert_version root = .ok tv)
    (h3 : assert_leads b64 codec fsc root = .ok ll)
    (hlen : ll.1.length < 6) :
    read_file b64 codec fsc xdom irb = .error .indexError := by
  have hnone : deriveStage (ll.1.map (fun l => l.samples)) = none :=
    deriveStage_eq_none_of_lt_six _ (by simpa using hlen)
  simp only [read_file, bind, Except.bind, h1, h2, h3, hnone]

theorem pySlice_block (vals : List Int) (k sc : Nat) :
    pySlice vals ((k : Int) * (sc : Int)) ((k : Int) * (sc : Int) + (sc : Int)) =
      (vals.drop (k * sc)).take sc := by
  have h1 : ((k : Int) * (sc : Int)).toNat = k * sc := by
    omega
  have h2 : ((k : Int) * (sc : Int) + (sc : Int)).toNat = k * sc + sc := by
    omega
  rw [pySlice, h1, h2, List.drop_take (k * sc + sc) (k * sc) vals]
  congr 1
  omega

theorem splitGo_blocks (vals : List Int) (lc sc : Nat) (hsc : 0 < sc) :
    ∀ (n k : Nat), k + n = lc →
      splitGo vals ((lc : Int) * (sc : Int)) (sc : Int) ((k : Int) * (sc : Int)) n =
        (List.range n).map (fun j => (vals.drop ((k + j) * sc)).take sc) := by
  intro n
  induction n with
  | zero => intro k hk; rfl
  | succ n ih =>
    intro k hk
    have hklt : k < lc := by omega
    have hlt : ((k : Int) * (sc : Int)) < (lc : Int) * (sc : Int) := by
      have h1 : (k : Int) < (lc : Int) := by exact_mod_cast hklt
      have h2 : (0 : Int) < (sc : Int) := by exact_mod_cast hsc
      exact mul_lt_mul_of_pos_right h1 h2
    have hoff : ((k : Int) * (sc : Int)) + (sc : Int) =
        ((k + 1 : Nat) : Int) * (sc : Int) := by
      push_cast
      ring
    rw [splitGo, if_pos hlt, pySlice_block, hoff, ih (k + 1) (by omega)]
    simp only [List.range_succ_eq_map, List.map_cons, List.map_map, Function.comp_def,
      Nat.add_zero, Nat.zero_add, Nat.succ_eq_add_one]
    have hfun : (fun j => List.take sc (List.drop ((k + 1 + j) * sc) vals)) =
        (fun x => List.take sc (List.drop ((k + (x + 1)) * sc) vals)) := by
      funext j
      have he : k + 1 + j = k + (j + 1) := by omega
      rw [he]
    rw [hfun]

theorem split_leads_blocks (wd : List Nat) (vals : List Int) (lc sc : Nat)
    (hdec : np_frombuffer_int16 wd = .ok vals) (hsc : 0 < sc) :
    split_leads wd lc ((sc : Nat) : Int) =
      .ok ((List.range lc).map (fun k => (vals.drop (k * sc)).take sc)) := by
  simp only [split_leads, bind, Except.bind, hdec]
  have h := splitGo_blocks vals lc sc hsc lc 0 (by omega)
  simp only [Nat.cast_zero, zero_mul, Nat.zero_add] at h
  rw [h]

theorem dictInsert_lookup_self {α : Type} (m : List (String × α)) (k : String) (v : α) :
    (dictInsert m k v).lookup k = some v := by
  induction m with
  | nil => simp [dictInsert, List.lookup]
  | cons p m ih =>
    obtain ⟨pk, pv⟩ := p
    by_cases hp : pk = k
    · subst hp
      simp [dictInsert, List.lookup]
    · by_cases hm : m.any (fun q => q.1 = k)
      · have h1 : dictInsert ((pk, pv) :: m) k v =
            (pk, pv) :: m.map (fun q => if q.1 = k then (k, v) else q) := by
          simp [dictInsert, hm, hp]
        have h2 : dictInsert m k v = m.map (fun q => if q.1 = k then (k, v) else q) := by
          simp [dictInsert, hm]
        rw [h1, List.lookup, ← h2]
        have hbeq : (k == pk) = false := by
          simp only [beq_eq_false_iff_ne, ne_eq]
          exact Ne.symm hp
        rw [hbeq, ih]
      · have h1 : dictInsert ((pk, pv) :: m) k v = (pk, pv) :: (m ++ [(k, v)]) := by
          simp [dictInsert, hm, hp]
        have h2 : dictInsert m k v = m ++ [(k, v)] := by
          simp [dictInsert, hm]
        rw [h1, List.lookup, ← h2]
        have hbeq : (k == pk) = false := by
          simp only [beq_eq_false_iff_ne, ne_eq]
          exact Ne.symm hp
        rw [hbeq, ih]

theorem processReps_last_wins (b64 : String → List Nat) (encoding : String)
    (sr : Int) (res meth : String) (it : Xml) (rb : EcgRepbeat)
    (hit : processRep b64 encoding sr res meth it = .ok rb) :
    ∀ (items : List Xml) (acc : List (String × EcgRepbeat))
      (m : List (String × EcgRepbeat)),
      processReps b64 encoding sr res meth (items ++ [it]) acc = .ok m →
      m.lookup rb.label = some rb := by
  intro items
  induction items with
  | nil =>
    intro acc m hm
    simp only [List.nil_append, processReps, bind, Except.bind, hit] at hm
    cases hm
    exact dictInsert_lookup_self acc rb.label rb
  | cons x xs ih =>
    intro acc m hm
    simp only [List.cons_append, processReps, bind, Except.bind] at hm
    cases hx : processRep b64 encoding sr res meth x with
    | error e => rw [hx] at hm; exact absurd hm (by simp)
    | ok rbx =>
      rw [hx] at hm
      exact ih _ _ hm

def b64triv : String → List Nat := fun _ => []

def codecTriv : List Nat → List String → List (List Int) := fun _ ls => ls.map (fun _ => [])

/-- C1 (counterexample): the claim's exact integer arithmetic disagrees with
the `int16` arithmetic the source performs.  With `I = [-1]`, `II = [32767]`
and zero III/aVR/aVL/aVF, the source computes `III[0] = -32768` (the exact
value 32768 wrapped into `int16`), while the claim's formulas give 32768;
aVL and aVF then differ as well. -/
theorem derive_corrections_exact_counterexample :
    deriveStage [[-1], [32767], [0], [0], [0], [0]] ≠
      deriveStage_spec [[-1], [32767], [0], [0], [0], [0]] ∧
    deriveStage [[-1], [32767], [0], [0], [0], [0]] =
      some [[-1], [32767], [-32768], [-16383], [16383], [-1]] ∧
    deriveStage_spec [[-1], [32767], [0], [0], [0], [0]] =
      some [[-1], [32767], [32768], [-16383], [-16385], [32767]] := by
  refine ⟨?_, ?_, ?_⟩ <;> decide

/-- C1 (amended): the augmented-lead corrections are applied per-sample in
`int16` wrapping arithmetic, in the order III, aVR, aVL, aVF, with aVL and
aVF reading the already corrected III and all divisions flooring; whenever
every sample of the six leads lies in `[-8191, 8191]` (so that no
intermediate overflows `int16`) this coincides exactly with the claim's
exact-integer formulas `deriveStage_spec`. -/
theorem derive_corrections_small_samples (lI lII lIII lavr lavl lavf : List Int)
    (rest : List (List Int))
    (hI : ∀ x ∈ lI, -8191 ≤ x ∧ x ≤ 8191)
    (hII : ∀ x ∈ lII, -8191 ≤ x ∧ x ≤ 8191)
    (hIII : ∀ x ∈ lIII, -8191 ≤ x ∧ x ≤ 8191)
    (havr : ∀ x ∈ lavr, -8191 ≤ x ∧ x ≤ 8191)
    (havl : ∀ x ∈ lavl, -8191 ≤ x ∧ x ≤ 8191)
    (havf : ∀ x ∈ lavf, -8191 ≤ x ∧ x ≤ 8191) :
    deriveStage (lI :: lII :: lIII :: lavr :: lavl :: lavf :: rest) =
      deriveStage_spec (lI :: lII :: lIII :: lavr :: lavl :: lavf :: rest) := by
  obtain ⟨e3, b3⟩ := corrIII_small lI lII hI hII lIII hIII 0
  have e4 := corrAVR_small lI lII hI hII lavr havr 0
  simp only [deriveStage, deriveStage_spec, bind, Option.bind, List.get?_cons_zero,
    List.get?_cons_succ]
  rw [e3, e4]
  cases h3 : corrIII_spec lI lII 0 lIII with
  | none => rfl
  | some l3 =>
    have hl3 : ∀ y ∈ l3, -24573 ≤ y ∧ y ≤ 24573 := b3 l3 (by rw [e3, h3])
    have e5 := corrAVL_small lI l3 hI hl3 lavl havl 0
    have e6 := corrAVF_small lII l3 hII hl3 lavf havf 0
    cases h4 : corrAVR_spec lI lII 0 lavr with
    | none => rfl
    | some l4 => simp only [e5, e6]

/-- C1 (witness): the spec's own example `I=[2], II=[4], III=[1], aVR=[0],
aVL=[0], aVF=[0]` satisfies the bound hypotheses, the wrapped and exact
derivations agree on it, and the result is `III=[1], aVR=[-3], aVL=[0],
aVF=[2]` as claimed. -/
theorem derive_corrections_small_samples_witness :
    (∀ x ∈ ([2] : List Int), -8191 ≤ x ∧ x ≤ 8191) ∧
    deriveStage [[2], [4], [1], [0], [0], [0]] =
      deriveStage_spec [[2], [4], [1], [0], [0], [0]] ∧
    deriveStage [[2], [4], [1], [0], [0], [0]] = some [[2], [4], [1], [-3], [0], [2]] :=
  ⟨by decide,
   derive_corrections_small_samples [2] [4] [1] [0] [0] [0] []
     (by decide) (by decide) (by decide) (by decide) (by decide) (by decide),
   by decide⟩

/-- C2: for an uncompressed payload decoded as little-endian `int16` values,
`split_leads` cuts the value sequence into `lead_count` contiguous blocks of
`sample_count` values — block `k` is `vals[k*sc : (k+1)*sc]` — and discards
everything beyond `lead_count * sample_count`. -/
theorem split_leads_contiguous_blocks (wd : List Nat) (vals : List Int) (lc sc : Nat)
    (hdec : np_frombuffer_int16 wd = .ok vals) (hsc : 0 < sc) :
    split_leads wd lc ((sc : Nat) : Int) =
      .ok ((List.range lc).map (fun k => (vals.drop (k * sc)).take sc)) :=
  split_leads_blocks wd vals lc sc hdec hsc

def wdEx : List Nat :=
  [1, 0, 2, 0, 3, 0, 4, 0, 5, 0, 6, 0, 7, 0, 8, 0, 9, 0, 10, 0, 11, 0, 12, 0]

/-- C2 (witness): the spec's example — 12 encoded values with
`lead_count = 2`, `sample_count = 3` — yields lead 0 `[1,2,3]` and lead 1
`[4,5,6]`, discarding values 7..12. -/
theorem split_leads_contiguous_blocks_witness :
    np_frombuffer_int16 wdEx = .ok [1, 2, 3, 4, 5, 6, 7, 8, 9, 10, 11, 12] ∧
    0 < 3 ∧
    split_leads wdEx 2 3 = .ok [[1, 2, 3], [4, 5, 6]] :=
  ⟨by decide, by decide,
   (split_leads_contiguous_blocks wdEx [1, 2, 3, 4, 5, 6, 7, 8, 9, 10, 11, 12] 2 3
      (by decide) (by decide)).trans (by decide)⟩

/-- C3: version validation succeeds exactly when the document type is
`SierraECG` or `PhilipsECG` and the version is one of `1.03`, `1.04`,
`1.04.01`, `1.04.02`; for every other combination — whatever the rest of
the document holds — `read_file` stops with the `UnsupportedXmlFileError`
whose message names both the type and the version, and no lead decoding is
attempted. -/
theorem version_gate
    (b64 : String → List Nat) (codec : List Nat → List String → List (List Int))
    (fsc : Int → Int → Int) (xdom root di nt nv : Xml) (irb : Bool)
    (h1 : get_node xdom "restingecgdata" = .ok root)
    (h2 : get_node root "documentinfo" = .ok di)
    (h3 : get_node di "documenttype" = .ok nt)
    (h4 : get_node di "documentversion" = .ok nv) :
    (assert_version root = .ok (nt.text, nv.text) ↔
       ((nt.text = "SierraECG" ∨ nt.text = "PhilipsECG") ∧
        (nv.text = "1.03" ∨ nv.text = "1.04" ∨ nv.text = "1.04.01" ∨
         nv.text = "1.04.02"))) ∧
    (¬ ((nt.text = "SierraECG" ∨ nt.text = "PhilipsECG") ∧
        (nv.text = "1.03" ∨ nv.text = "1.04" ∨ nv.text = "1.04.01" ∨
         nv.text = "1.04.02")) →
      read_file b64 codec fsc xdom irb =
        .error (.unsupported
          ("Files of type " ++ nt.text ++ " " ++ nv.text ++ " are unsupported")) ∧
      (∃ p s, ("Files of type " ++ nt.text ++ " " ++ nv.text ++ " are unsupported")
          = p ++ nt.text ++ s) ∧
      (∃ p s, ("Files of type " ++ nt.text ++ " " ++ nv.text ++ " are unsupported")
          = p ++ nv.text ++ s)) := by
  have hmem : (nt.text ∉ ["SierraECG", "PhilipsECG"] ∨
      nv.text ∉ ["1.03", "1.04", "1.04.01", "1.04.02"]) ↔
      ¬ ((nt.text = "SierraECG" ∨ nt.text = "PhilipsECG") ∧
        (nv.text = "1.03" ∨ nv.text = "1.04" ∨ nv.text = "1.04.01" ∨
         nv.text = "1.04.02")) := by
    simp [List.mem_cons]
    tauto
  have hav : assert_version root =
      (if nt.text ∉ ["SierraECG", "PhilipsECG"] ∨
          nv.text ∉ ["1.03", "1.04", "1.04.01", "1.04.02"] then
        Except.error (Err.unsupported
          ("Files of type " ++ nt.text ++ " " ++ nv.text ++ " are unsupported"))
      else Except.ok (nt.text, nv.text)) := by
    simp only [assert_version, bind, Except.bind, h2, h3, h4]
  constructor
  · constructor
    · intro h
      by_contra hc
      rw [hav, if_pos (hmem.mpr hc)] at h
      exact Except.noConfusion h
    · intro hc
      rw [hav, if_neg (by rw [hmem]; exact not_not_intro hc)]
  · intro hc
    have herr : assert_version root = .error (.unsupported
        ("Files of type " ++ nt.text ++ " " ++ nv.text ++ " are unsupported")) := by
      rw [hav, if_pos (hmem.mpr hc)]
    refine ⟨?_, ?_, ?_⟩
    · simp only [read_file, bind, Except.bind, h1, herr]
    · exact ⟨"Files of type ", " " ++ nv.text ++ " are unsupported", by
        simp [String.append_assoc]⟩
    · exact ⟨"Files of type " ++ nt.text ++ " ", " are unsupported", by
        simp [String.append_assoc]⟩

def ntBad : Xml := Xml.node "documenttype" [] "FooECG" []

def nvBad : Xml := Xml.node "documentversion" [] "9.9" []

def diBad : Xml := Xml.node "documentinfo" [] "" [ntBad, nvBad]

def rootBad : Xml := Xml.node "restingecgdata" [] "" [diBad]

def docBad : Xml := Xml.node "#document" [] "" [rootBad]

/-- C3 (witness): a document with type `FooECG` and version `9.9` makes
`read_file` fail with the message naming both offending values. -/
theorem version_gate_witness :
    read_file b64triv codecTriv fscStd docBad false =
      .error (.unsupported "Files of type FooECG 9.9 are unsupported") := by
  have h := (version_gate b64triv codecTriv fscStd docBad rootBad diBad ntBad nvBad false
    (by simp [get_node, get_opt_node, Xml.descendants, Xml.descList, Xml.tag,
      docBad, rootBad, diBad, ntBad, nvBad])
    (by simp [get_node, get_opt_node, Xml.descendants, Xml.descList, Xml.tag,
      rootBad, diBad, ntBad, nvBad])
    (by simp [get_node, get_opt_node, Xml.descendants, Xml.descList, Xml.tag,
      diBad, ntBad, nvBad])
    (by simp [get_node, get_opt_node, Xml.descendants, Xml.descList, Xml.tag,
      diBad, ntBad, nvBad])).2 (by decide)
  exact h.1.trans (by decide)

/-- C4 (counterexample): with only two decoded leads the derivation stage of
`read_file` raises `IndexError` (modelled `none`) instead of returning the
leads unchanged, contradicting the claim that the call does not fail. -/
theorem derive_six_lead_guard_counterexample :
    deriveStage [[1], [2]] = none ∧ deriveStage [[1], [2]] ≠ some [[1], [2]] := by
  constructor <;> decide

/-- C4 (amended): the derivation stage of `read_file` fails (`IndexError`)
whenever fewer than six leads were decoded — `read_file` then returns that
error rather than the untouched leads — and when it succeeds at least six
leads are present and only positions 0..5 are rewritten: positions 0, 1 and
everything from position 6 on are returned unchanged. -/
theorem derive_six_lead_guard :
    (∀ ls : List (List Int), ls.length < 6 → deriveStage ls = none) ∧
    (∀ (ls d : List (List Int)), deriveStage ls = some d →
       6 ≤ ls.length ∧ d.length = ls.length ∧
       d.get? 0 = ls.get? 0 ∧ d.get? 1 = ls.get? 1 ∧ d.drop 6 = ls.drop 6) ∧
    (∀ (b64 : String → List Nat) (codec : List Nat → List String → List (List Int))
       (fsc : Int → Int → Int)
       (xdom root : Xml) (irb : Bool) (tv : String × String)
       (ll : List EcgLead × List String),
       get_node xdom "restingecgdata" = .ok root →
       assert_version root = .ok tv →
       assert_leads b64 codec fsc root = .ok ll →
       ll.1.length < 6 →
       read_file b64 codec fsc xdom irb = .error .indexError) :=
  ⟨deriveStage_eq_none_of_lt_six,
   deriveStage_some_structure,
   fun b64 codec fsc xdom root irb tv ll h1 h2 h3 hlen =>
     read_file_indexError_of_short b64 codec fsc xdom root irb tv ll h1 h2 h3 hlen⟩

/-- C4 (witness): a three-lead list is below the six-lead threshold and the
derivation stage yields `none` on it. -/
theorem derive_six_lead_guard_witness :
    ([[1], [2], [3]] : List (List Int)).length < 6 ∧
    deriveStage [[1], [2], [3]] = none :=
  ⟨by decide, derive_six_lead_guard.1 [[1], [2], [3]] (by decide)⟩

def docC5 : Xml :=
  Xml.node "#document" [] ""
    [Xml.node "restingecgdata" [] ""
      [Xml.node "documentinfo" [] ""
        [Xml.node "documenttype" [] "SierraECG" [],
         Xml.node "documentversion" [] "1.03" []],
       Xml.node "dataacquisition" [] ""
        [Xml.node "signalcharacteristics" [] ""
          [Xml.node "samplingrate" [] "1000" []]],
       Xml.node "parsedwaveforms"
         [("durationperchannel", "1"), ("leadlabels", "I II III aVR aVL aVF"),
          ("numberofleads", "6"), ("dataencoding", "Base64")]
         "AQACAA==" []]]

def b64C5 : String → List Nat := fun s => if s = "AQACAA==" then [1, 0, 2, 0] else []

def fileC5 : SierraEcgFile :=
  { doc_type := "SierraECG", doc_ver := "1.03",
    leads := [
      { label := "I", sampling_freq := 1000, duration := 1, samples := [1] },
      { label := "II", sampling_freq := 1000, duration := 1, samples := [2] },
      { label := "III", sampling_freq := 1000, duration := 1, samples := [] },
      { label := "aVR", sampling_freq := 1000, duration := 1, samples := [] },
      { label := "aVL", sampling_freq := 1000, duration := 1, samples := [] },
      { label := "aVF", sampling_freq := 1000, duration := 1, samples := [] }],
    repbeats := [] }

/-- C5 (counterexample): a file whose payload supplies only two of the six
declared one-sample leads decodes successfully (`b64C5` models
`b64decode("AQACAA==") = 01 00 02 00`, and `fscStd 1 1000 = 1` is exactly
CPython's `int(1 * (1000 / 1000))` at this document's geometry), yet lead
2 has 0 samples while `floor(duration * sampling_freq / 1000) =
floor(1 * 1000 / 1000) = 1`, so the claimed invariant fails on a
successfully decoded file.  (The correction loops run zero iterations on
the empty leads 2..5, so the source genuinely succeeds here despite its
read-only frombuffer views.) -/
theorem lead_length_invariant_counterexample :
    read_file b64C5 codecTriv fscStd docC5 false = .ok fileC5 ∧
    (fileC5.leads.map (fun l => l.samples.length))[2]? = some 0 ∧
    (fileC5.leads.map (fun l => ((l.duration * l.sampling_freq).fdiv 1000).toNat))[2]?
      = some 1 ∧
    (0 : Nat) ≠ 1 := by
  refine ⟨?_, by decide, by decide, by decide⟩
  simp [read_file, docC5, b64C5, codecTriv, fscStd, fileC5, assert_version,
    assert_leads, get_or_create_labels, get_waveform_data, infer_compression,
    split_leads, np_frombuffer_int16, toInt16LE, splitGo, pySlice, py_int,
    parseDigitsAux, pyTake, py_split_sp, splitChars, buildLeads, deriveStage,
    corrIII, corrAVR, corrAVL, corrAVF, get_node, get_opt_node, get_attr,
    get_nodes, Xml.descendants, Xml.descList, Xml.attrs, Xml.text, Xml.tag,
    bind, Except.bind, pure, Except.pure, List.lookup, wrap16]

/-- C5 (amended): whatever value the source's IEEE-double sample-count
expression `int(duration * (sampling_freq / 1000))` yields — it enters
the model as the opaque collaborator `fsc`, and this theorem quantifies
over `fsc`, so it holds in particular for the program's actual float
behaviour — when that count is positive and the decoded uncompressed
payload supplies at least `lead_count * sample_count` 16-bit values,
every directly decoded lead has exactly `sample_count` samples. -/
theorem lead_length_full_payload
    (b64 : String → List Nat) (codec : List Nat → List String → List (List Int))
    (fsc : Int → Int → Int)
    (sd pw srn : Xml) (labels : List String) (ds : String) (f d : Int)
    (vals : List Int)
    (h1 : get_node sd "samplingrate" = .ok srn)
    (h2 : py_int srn.text = .ok f)
    (h3 : get_attr pw "durationperchannel" none = .ok ds)
    (h4 : py_int ds = .ok d)
    (h5 : get_attr pw "dataencoding" none = .ok "Base64")
    (h6 : infer_compression pw = .ok "Uncompressed")
    (h7 : np_frombuffer_int16 (b64 pw.text) = .ok vals)
    (hpos : 0 < fsc d f)
    (hfull : labels.length * (fsc d f).toNat ≤ vals.length) :
    ∃ leads, get_waveform_data b64 codec fsc sd pw labels = .ok leads ∧
      leads.length = labels.length ∧
      ∀ l ∈ leads, (l.length : Int) = fsc d f := by
  have hscnat : (((fsc d f).toNat : Nat) : Int) = fsc d f :=
    Int.toNat_of_nonneg (le_of_lt hpos)
  have hsplit := split_leads_blocks (b64 pw.text) vals labels.length
    (fsc d f).toNat h7 (by omega)
  rw [hscnat] at hsplit
  refine ⟨(List.range labels.length).map
      (fun k => (vals.drop (k * (fsc d f).toNat)).take (fsc d f).toNat),
      ?_, ?_, ?_⟩
  · have hgwd : get_waveform_data b64 codec fsc sd pw labels =
        split_leads (b64 pw.text) labels.length (fsc d f) := by
      simp [get_waveform_data, bind, Except.bind, h1, h2, h3, h4, h5, h6, pure,
        Except.pure]
    rw [hgwd, hsplit]
  · simp
  · intro l hl
    rw [List.mem_map] at hl
    obtain ⟨k, hk, rfl⟩ := hl
    rw [List.mem_range] at hk
    have hmul : (k + 1) * (fsc d f).toNat ≤ labels.length * (fsc d f).toNat :=
      Nat.mul_le_mul_right _ hk
    have hlen : ((vals.drop (k * (fsc d f).toNat)).take (fsc d f).toNat).length
        = (fsc d f).toNat := by
      simp only [List.length_take, List.length_drop]
      have : (k + 1) * (fsc d f).toNat = k * (fsc d f).toNat + (fsc d f).toNat := by
        ring
      omega
    rw [hlen, hscnat]

def srnW5 : Xml := Xml.node "samplingrate" [] "1000" []

def sdW5 : Xml := Xml.node "signalcharacteristics" [] "" [srnW5]

def pwW5 : Xml :=
  Xml.node "parsedwaveforms"
    [("durationperchannel", "2"), ("dataencoding", "Base64")] "AQACAAMABAA=" []

def b64W5 : String → List Nat :=
  fun s => if s = "AQACAAMABAA=" then [1, 0, 2, 0, 3, 0, 4, 0] else []

/-- C5 (witness): a complete payload — four values for two leads of two
samples each at 1000 Hz for 2 ms — gives every lead exactly two samples;
`fscStd 2 1000 = 2` is CPython's `int(2 * (1000 / 1000))` at this
geometry, where the float computation is exact. -/
theorem lead_length_full_payload_witness :
    (0 : Int) < fscStd 2 1000 ∧ fscStd 2 1000 = 2 ∧
    (∃ leads,
      get_waveform_data b64W5 codecTriv fscStd sdW5 pwW5 ["I", "II"] = .ok leads ∧
      leads.length = (["I", "II"] : List String).length ∧
      ∀ l ∈ leads, (l.length : Int) = fscStd 2 1000) :=
  ⟨by decide, by decide,
   lead_length_full_payload b64W5 codecTriv fscStd sdW5 pwW5 srnW5 ["I", "II"] "2"
     1000 2 [1, 2, 3, 4]
     (by simp [get_node, get_opt_node, Xml.descendants, Xml.descList, Xml.tag,
       sdW5, srnW5])
     (by decide) (by decide) (by decide) (by decide) (by decide) (by decide)
     (by decide) (by decide)⟩

/-- C6: lead-label resolution.  A non-empty space-separated `leadlabels`
attribute is split on spaces and truncated to `numberofleads`; otherwise
labels are synthesised for indices 1..channel_count, where indices 1-6 map
to I, II, III, aVR, aVL, aVF and 7-12 to `V{index-6}` exactly when the
acquisition type is `STD-12` or `10-WIRE`, and every other index or
acquisition type yields `Channel {index}`. -/
theorem label_resolution (sd pw : Xml) :
    (∀ s n k, pw.attrs.lookup "leadlabels" = some s → s ≠ "" →
       pw.attrs.lookup "numberofleads" = some n → py_int n = .ok k →
       get_or_create_labels sd pw = .ok (pyTake (py_split_sp s) k)) ∧
    (∀ cn an g,
       (pw.attrs.lookup "leadlabels" = none ∨ pw.attrs.lookup "leadlabels" = some "") →
       get_node sd "numberchannelsallocated" = .ok cn → py_int cn.text = .ok g →
       get_node sd "acquisitiontype" = .ok an →
       get_or_create_labels sd pw =
         .ok ((pyRange g).map (fun x => get_lead_name an.text (x + 1)))) ∧
    (∀ acq, (acq = "STD-12" ∨ acq = "10-WIRE") →
       get_lead_name acq 1 = "I" ∧ get_lead_name acq 2 = "II" ∧
       get_lead_name acq 3 = "III" ∧ get_lead_name acq 4 = "aVR" ∧
       get_lead_name acq 5 = "aVL" ∧ get_lead_name acq 6 = "aVF" ∧
       (∀ i : Int, 7 ≤ i → i ≤ 12 → get_lead_name acq i = "V" ++ toString (i - 6)) ∧
       (∀ i : Int, i < 1 ∨ 12 < i → get_lead_name acq i = "Channel " ++ toString i)) ∧
    (∀ acq (i : Int), acq ≠ "STD-12" → acq ≠ "10-WIRE" →
       get_lead_name acq i = "Channel " ++ toString i) := by
  refine ⟨?_, ?_, ?_, ?_⟩
  · intro s n k hs hne hn hk
    simp [get_or_create_labels, get_attr, bind, Except.bind, pure, Except.pure,
      hs, hne, hn, hk]
  · intro cn an g hll hcn hg han
    rcases hll with hll | hll <;>
      simp [get_or_create_labels, get_attr, bind, Except.bind, pure, Except.pure,
        hll, hcn, hg, han]
  · intro acq hacq
    have hmem : acq ∈ ["STD-12", "10-WIRE"] := by
      rcases hacq with h | h <;> simp [h]
    refine ⟨?_, ?_, ?_, ?_, ?_, ?_, ?_, ?_⟩
    · simp [get_lead_name, hmem]
    · simp [get_lead_name, hmem]
    · simp [get_lead_name, hmem]
    · simp [get_lead_name, hmem]
    · simp [get_lead_name, hmem]
    · simp [get_lead_name, hmem]
    · intro i h7 h12
      simp only [get_lead_name, if_pos hmem]
      rw [if_neg (by omega), if_neg (by omega), if_neg (by omega), if_neg (by omega),
        if_neg (by omega), if_neg (by omega), if_pos (by constructor <;> omega)]
    · intro i hi
      simp only [get_lead_name, if_pos hmem]
      rw [if_neg (by omega), if_neg (by omega), if_neg (by omega), if_neg (by omega),
        if_neg (by omega), if_neg (by omega), if_neg (by omega)]
  · intro acq i h1 h2
    have hmem : acq ∉ ["STD-12", "10-WIRE"] := by simp [h1, h2]
    simp [get_lead_name, hmem]

def pwW6 : Xml :=
  Xml.node "parsedwaveforms"
    [("leadlabels", "I II III"), ("numberofleads", "2")] "" []

def pwW6b : Xml := Xml.node "parsedwaveforms" [] "" []

def cnW6 : Xml := Xml.node "numberchannelsallocated" [] "8" []

def anW6 : Xml := Xml.node "acquisitiontype" [] "STD-12" []

def sdW6 : Xml := Xml.node "signalcharacteristics" [] "" [cnW6, anW6]

/-- C6 (witness): `leadlabels="I II III"` with `numberofleads="2"` yields
exactly `["I", "II"]` (truncated, not padded), and synthesis for `STD-12`
with 8 allocated channels yields `I II III aVR aVL aVF V1 V2`. -/
theorem label_resolution_witness :
    get_or_create_labels sdW6 pwW6 = .ok ["I", "II"] ∧
    get_or_create_labels sdW6 pwW6b =
      .ok ["I", "II", "III", "aVR", "aVL", "aVF", "V1", "V2"] := by
  constructor
  · exact ((label_resolution sdW6 pwW6).1 "I II III" "2" 2 (by decide)
      (by decide) (by decide) (by decide)).trans (by decide)
  · exact ((label_resolution sdW6 pwW6b).2.1 cnW6 anW6 8 (Or.inl (by decide))
      (by simp [get_node, get_opt_node, Xml.descendants, Xml.descList, Xml.tag,
        sdW6, cnW6, anW6])
      (by decide)
      (by simp [get_node, get_opt_node, Xml.descendants, Xml.descList, Xml.tag,
        sdW6, cnW6, anW6])).trans (by decide)

/-- C7: the compression method is `compressmethod` if present, else
`compression`, else `"Uncompressed"`; method `XLI` hands the decoded byte
buffer and the label list to the injected codec (whose result, one
sequence per label under the codec contract, is returned unchanged), and
any method other than `Uncompressed`/`XLI` fails with the
unsupported-compression error naming it. -/
theorem compression_dispatch
    (b64 : String → List Nat) (codec : List Nat → List String → List (List Int))
    (fsc : Int → Int → Int)
    (sd pw srn : Xml) (labels : List String) (ds : String) (f d : Int)
    (h1 : get_node sd "samplingrate" = .ok srn)
    (h2 : py_int srn.text = .ok f)
    (h3 : get_attr pw "durationperchannel" none = .ok ds)
    (h4 : py_int ds = .ok d)
    (h5 : get_attr pw "dataencoding" none = .ok "Base64") :
    ((∀ m, pw.attrs.lookup "compressmethod" = some m →
        infer_compression pw = .ok m) ∧
     (pw.attrs.lookup "compressmethod" = none →
        ∀ m, pw.attrs.lookup "compression" = some m →
          infer_compression pw = .ok m) ∧
     (pw.attrs.lookup "compressmethod" = none →
        pw.attrs.lookup "compression" = none →
          infer_compression pw = .ok "Uncompressed")) ∧
    (infer_compression pw = .ok "XLI" →
       get_waveform_data b64 codec fsc sd pw labels =
         .ok (codec (b64 pw.text) labels)) ∧
    ((∀ bs ls, (codec bs ls).length = ls.length) →
       infer_compression pw = .ok "XLI" →
       ∀ out, get_waveform_data b64 codec fsc sd pw labels = .ok out →
         out.length = labels.length) ∧
    (∀ m, infer_compression pw = .ok m → m ≠ "Uncompressed" → m ≠ "XLI" →
       get_waveform_data b64 codec fsc sd pw labels =
         .error (.unsupported
           ("Waveform data compression algorithm unsupported: " ++ m))) := by
  have hbase : ∀ cm, infer_compression pw = .ok cm →
      get_waveform_data b64 codec fsc sd pw labels =
        (if cm ≠ "Uncompressed" then
          (if cm = "XLI" then .ok (codec (b64 pw.text) labels)
           else .error (.unsupported
             ("Waveform data compression algorithm unsupported: " ++ cm)))
         else split_leads (b64 pw.text) labels.length (fsc d f)) := by
    intro cm hcm
    simp only [get_waveform_data, bind, Except.bind, h1, h2, h3, h4, h5, hcm]
    simp [pure, Except.pure, bind, Except.bind]
  have hxli : infer_compression pw = .ok "XLI" →
      get_waveform_data b64 codec fsc sd pw labels =
        .ok (codec (b64 pw.text) labels) := by
    intro hx
    rw [hbase "XLI" hx]
    simp
  refine ⟨⟨?_, ?_, ?_⟩, hxli, ?_, ?_⟩
  · intro m hm
    cases hcomp : pw.attrs.lookup "compression" <;>
      simp [infer_compression, get_attr, bind, Except.bind, hm, hcomp]
  · intro hnone m hm
    simp [infer_compression, get_attr, bind, Except.bind, hnone, hm]
  · intro hnone hnone2
    simp [infer_compression, get_attr, bind, Except.bind, hnone, hnone2]
  · intro hc hx out hout
    rw [hxli hx] at hout
    cases hout
    exact hc _ _
  · intro m hm hm1 hm2
    rw [hbase m hm, if_pos hm1, if_neg hm2]

def pwW7 : Xml :=
  Xml.node "parsedwaveforms"
    [("durationperchannel", "2"), ("dataencoding", "Base64"),
     ("compressmethod", "XLI")] "AQACAAMABAA=" []

def pwW7b : Xml :=
  Xml.node "parsedwaveforms"
    [("durationperchannel", "2"), ("dataencoding", "Base64"),
     ("compression", "gzip")] "AQACAAMABAA=" []

def codecW7 : List Nat → List String → List (List Int) :=
  fun _ ls => ls.map (fun _ => [7])

/-- C7 (witness): a `compressmethod="XLI"` document is delegated to the
injected codec — the decoder returns exactly the codec's per-label output —
and a `compression="gzip"` document fails with the error naming `gzip`. -/
theorem compression_dispatch_witness :
    infer_compression pwW7 = .ok "XLI" ∧
    get_waveform_data b64W5 codecW7 fscStd sdW5 pwW7 ["I", "II"] = .ok [[7], [7]] ∧
    get_waveform_data b64W5 codecW7 fscStd sdW5 pwW7b ["I"] =
      .error (.unsupported "Waveform data compression algorithm unsupported: gzip") := by
  have hsr : get_node sdW5 "samplingrate" = .ok srnW5 := by
    simp [get_node, get_opt_node, Xml.descendants, Xml.descList, Xml.tag, sdW5, srnW5]
  refine ⟨by decide, ?_, ?_⟩
  · exact ((compression_dispatch b64W5 codecW7 fscStd sdW5 pwW7 srnW5 ["I", "II"] "2"
      1000 2 hsr (by decide) (by decide) (by decide) (by decide)).2.1
      (by decide)).trans (by decide)
  · exact ((compression_dispatch b64W5 codecW7 fscStd sdW5 pwW7b srnW5 ["I"] "2"
      1000 2 hsr (by decide) (by decide) (by decide) (by decide)).2.2.2 "gzip"
      (by decide) (by decide) (by decide)).trans (by decide)

/-- C8: representative-beat extraction returns the empty mapping when no
`repbeats` container exists (no error), and when two beat entries carry the
same `leadname` the later entry overwrites the earlier one: after
processing `items ++ [it]`, the mapping sends the label of `it`'s beat to
that beat, whatever came before. -/
theorem repbeat_extraction (b64 : String → List Nat) :
    (∀ elt, get_opt_node elt "repbeats" = none → assert_reps b64 elt = .ok []) ∧
    (∀ encoding (sr : Int) res meth it rb items acc m,
       processRep b64 encoding sr res meth it = .ok rb →
       processReps b64 encoding sr res meth (items ++ [it]) acc = .ok m →
       m.lookup rb.label = some rb) := by
  constructor
  · intro elt h
    simp [assert_reps, h]
  · intro encoding sr res meth it rb items acc m hit hm
    exact processReps_last_wins b64 encoding sr res meth it rb hit items acc m hm

def itemA : Xml :=
  Xml.node "repbeat" [("leadname", "I")] ""
    [Xml.node "waveform" [("duration", "1")] "AQA=" []]

def itemB : Xml :=
  Xml.node "repbeat" [("leadname", "I")] ""
    [Xml.node "waveform" [("duration", "2")] "AgA=" []]

def b64W8 : String → List Nat :=
  fun s => if s = "AQA=" then [1, 0] else if s = "AgA=" then [2, 0] else []

def rbB : EcgRepbeat :=
  { label := "I", sampling_freq := 0, duration := 2, resolution := "0",
    method := "", samples := [2] }

/-- C8 (witness): a document with no `repbeats` container yields the empty
mapping, and two beats both labelled `I` leave the second (duration 2,
samples `[2]`) in the mapping. -/
theorem repbeat_extraction_witness :
    assert_reps b64W8 (Xml.node "#document" [] "" []) = .ok [] ∧
    processRep b64W8 "Base64" 0 "0" "" itemB = .ok rbB ∧
    processReps b64W8 "Base64" 0 "0" "" [itemA, itemB] [] = .ok [("I", rbB)] ∧
    List.lookup "I" [("I", rbB)] = some rbB := by
  have hB : processRep b64W8 "Base64" 0 "0" "" itemB = .ok rbB := by
    simp [processRep, itemB, b64W8, rbB, get_attr, get_opt_node, Xml.descendants,
      Xml.descList, Xml.tag, Xml.attrs, Xml.text, bind, Except.bind, py_int,
      parseDigitsAux, np_frombuffer_int16, toInt16LE, pure, Except.pure,
      List.lookup]
  have hs : processReps b64W8 "Base64" 0 "0" "" [itemA, itemB] [] = .ok [("I", rbB)] := by
    simp [processReps, processRep, itemA, itemB, b64W8, rbB, dictInsert, get_attr,
      get_opt_node, Xml.descendants, Xml.descList, Xml.tag, Xml.attrs, Xml.text,
      bind, Except.bind, py_int, parseDigitsAux, np_frombuffer_int16, toInt16LE,
      pure, Except.pure, List.lookup]
  refine ⟨(repbeat_extraction b64W8).1 _ (by
    simp [get_opt_node, Xml.descendants, Xml.descList, Xml.tag]), hB, hs, ?_⟩
  have h := (repbeat_extraction b64W8).2 "Base64" 0 "0" "" itemB rbB [itemA]
    [] [("I", rbB)] hB (by simp only [List.cons_append, List.nil_append]; exact hs)
  exact h

/-- C10: a `repbeats` container whose `dataencoding` attribute holds any
value (in particular an unrecognised one) but which has no `repbeat`
children extracts successfully to the empty mapping: the
unsupported-encoding error is only raised while processing an individual
beat entry. -/
theorem repbeat_empty_container_ok (b64 : String → List Nat) (elt r : Xml)
    (E : String)
    (h1 : get_opt_node elt "repbeats" = some r)
    (h2 : r.attrs.lookup "dataencoding" = some E)
    (_hne : E ≠ "Base64")
    (h4 : r.attrs.lookup "samplespersec" = none)
    (h5 : r.attrs.lookup "resolution" = none)
    (h6 : r.attrs.lookup "repbeatmethod" = none)
    (h7 : get_nodes r "repbeat" = []) :
    assert_reps b64 elt = .ok [] := by
  have hz : py_int "0" = .ok 0 := by decide
  have hz2 : py_float "0" = .ok "0" := by decide
  simp [assert_reps, h1, h2, h4, h5, h6, h7, get_attr, bind, Except.bind, hz, hz2,
    processReps, pure, Except.pure]

def rW10 : Xml := Xml.node "repbeats" [("dataencoding", "Weird")] "" []

def docW10 : Xml :=
  Xml.node "#document" [] "" [Xml.node "restingecgdata" [] "" [rW10]]

/-- C10 (witness): a childless `repbeats` container declaring the
unrecognised encoding `Weird` still extracts to the empty mapping. -/
theorem repbeat_empty_container_ok_witness :
    ("Weird" : String) ≠ "Base64" ∧ assert_reps b64triv docW10 = .ok [] :=
  ⟨by decide,
   repbeat_empty_container_ok b64triv docW10 rW10 "Weird"
     (by simp [get_opt_node, Xml.descendants, Xml.descList, Xml.tag, docW10, rW10])
     (by decide) (by decide) (by decide) (by decide) (by decide)
     (by simp [get_nodes, Xml.descendants, Xml.descList, Xml.tag, rW10])⟩
